import Mathlib

/-!
Shallow embedding of the WASM game host and match orchestration engine of
the llm-arena repository, together with proofs settling the frozen claims.

Source files embedded here:
- src/src/types/game.ts                      (data model)
- src/src/interfaces/WasmGameEngine.ts       (marshaling, wrapper, validator)
- src/src/engines/WasmGameEngineAdapter.ts   (game engine adapter)
- src/src/utils/MatchController.ts           (match loop)
- src/unnamed/part_008                       (HumanAgent, LLMAgent)

Conventions: machine integers are Nat; JS exceptions are `Except String`
values carrying the error message; the foreign module and the LLM provider
are parameters of the definitions; console logging, wall-clock timestamps
inside transcript lines and prompt text are dropped (they influence no
control flow).
-/

namespace LlmArena

/-! ### Data model (src/src/types/game.ts) -/

inductive PlayerId where
  | player1
  | player2
deriving DecidableEq, Repr

/-- The string form of a player id, as it appears in template strings. -/
def PlayerId.label : PlayerId → String
  | .player1 => "player1"
  | .player2 => "player2"

inductive GameResultT where
  | win
  | loss
  | draw
  | ongoing
deriving DecidableEq, Repr

structure Position where
  row : Int
  col : Int
deriving DecidableEq, Repr

/-- A move. In the source `data` is `unknown`; every code path under
verification guards it with a `typeof === 'string'` check before use, so it
is embedded as a `String` directly. -/
structure Move where
  playerId : PlayerId
  position : Option Position := none
  data : String
  timestamp : Nat
deriving DecidableEq, Repr

structure GameState where
  board : String
  currentPlayer : PlayerId
  moves : List Move
  result : GameResultT
  winner : Option PlayerId := none
  metadata : List (String × String) := []
deriving DecidableEq, Repr

/-! ### Binary marshaling (src/src/interfaces/WasmGameEngine.ts, lines 106-149)

The linear memory is a byte buffer, embedded as `List Nat`; a marshaled
string is its UTF-8 byte sequence (`List Nat`), so TextEncoder/TextDecoder
are identities and the NUL terminator is the byte 0. -/

def PAGE_SIZE : Nat := 65536

/-- `Uint8Array.prototype.set(bytes, ptr)` on an in-bounds write. -/
def memSet (mem : List Nat) (bytes : List Nat) (ptr : Nat) : List Nat :=
  mem.take ptr ++ bytes ++ mem.drop (ptr + bytes.length)

/-- `writeStringToWasm` (lines 106-132): NUL-terminate, then either place
the bytes at a pointer obtained from the module allocator, or grow the
memory by whole pages and place the bytes at the new tail. An allocator
pointer that does not leave room for the bytes makes the typed-array write
throw a RangeError. -/
def writeStringToWasm (malloc : Option (Nat → Nat)) (mem : List Nat) (s : List Nat) :
    Except String (Nat × List Nat) :=
  let bytes := s ++ [0]
  match malloc with
  | some alloc =>
    let ptr := alloc bytes.length
    if ptr + bytes.length ≤ mem.length then
      .ok (ptr, memSet mem bytes ptr)
    else
      .error "RangeError: offset is out of bounds"
  | none =>
    let neededBytes := bytes.length
    let neededPages := (neededBytes + PAGE_SIZE - 1) / PAGE_SIZE
    let grown := mem ++ List.replicate (neededPages * PAGE_SIZE) 0
    let ptr := grown.length - neededBytes
    .ok (ptr, memSet grown bytes ptr)

/-- Number of bytes scanned forward before the first NUL byte or the end of
the buffer, whichever comes first (the `while` loop of lines 140-145). -/
def scanToNul : List Nat → Nat
  | [] => 0
  | b :: rest => if b = 0 then 0 else scanToNul rest + 1

/-- `readStringFromWasm` (lines 134-149): slice from `ptr` up to the first
NUL byte or the end of memory. -/
def readStringFromWasm (mem : List Nat) (ptr : Nat) : List Nat :=
  (mem.drop ptr).take (scanToNul (mem.drop ptr))

/-! ### Lemmas about the marshaling layer -/

theorem scanToNul_le_length (l : List Nat) : scanToNul l ≤ l.length := by
  induction l with
  | nil => simp [scanToNul]
  | cons b rest ih =>
    simp only [scanToNul, List.length_cons]
    split
    · omega
    · omega

theorem scanToNul_append_nul (s rest : List Nat) (h : 0 ∉ s) :
    scanToNul (s ++ 0 :: rest) = s.length := by
  induction s with
  | nil => simp [scanToNul]
  | cons b bs ih =>
    simp only [List.cons_append, scanToNul, List.length_cons]
    have hb : b ≠ 0 := by
      intro hb0
      exact h (by simp [hb0])
    rw [if_neg hb]
    have := ih (by intro hm; exact h (by simp [hm]))
    simp only [List.append_eq] at this ⊢
    omega

theorem readStringFromWasm_of_drop (mem : List Nat) (ptr : Nat) (s rest : List Nat)
    (hdrop : mem.drop ptr = s ++ 0 :: rest) (hs : 0 ∉ s) :
    readStringFromWasm mem ptr = s := by
  unfold readStringFromWasm
  rw [hdrop, scanToNul_append_nul s rest hs]
  simp [List.take_left]

/-! ### WasmGameWrapper.getCurrentPlayer (src/src/interfaces/WasmGameEngine.ts, lines 250-268)

The optional raw export `get_current_player` is a function from the current
state string to a reply string (marshaling abstracted by the layer above);
`none` models a module that does not export it. A reply other than
"player1"/"player2" throws; with the export absent the wrapper returns
"player1" unconditionally. -/

namespace WasmGameWrapper

def getCurrentPlayer (get_current_player : Option (String → String))
    (currentState : String) : Except String String :=
  match get_current_player with
  | some f =>
    let player := f currentState
    if player = "player1" then .ok "player1"
    else if player = "player2" then .ok "player2"
    else
      .error ("WASM implementation error: expected \"player1\" or \"player2\", got \""
        ++ player ++ "\"")
  | none => .ok "player1"

end WasmGameWrapper

/-! ### The engine interface seen by the adapter (WasmGameEngine.ts, lines 2-15)

The TS interface is stateful (the wrapper keeps the current state string
between calls), so its methods are embedded with an explicit engine-state
type `σ`; `getInitialState` and `applyMove` update it, the queries read it.
`getCurrentPlayer` is an optional method whose wrapper implementation can
throw: `.ok none` models the method being absent (so `?.()` yields
undefined), `.error` models a throw from inside the method. -/

structure WasmGameEngine (σ : Type) where
  getInitialState : σ → String × σ
  getValidMoves : σ → List String
  getCurrentPlayer : σ → Except String (Option String)
  applyMove : σ → String → String × σ
  isGameOver : σ → Bool
  getWinner : σ → Option String
  render : σ → String

/-- The engine-interface `getCurrentPlayer` induced by a `WasmGameWrapper`
whose raw module export is `get_current_player` and whose current state
string is read off the engine state by `curState`. -/
def wrapperCurrentPlayer {σ : Type} (get_current_player : Option (String → String))
    (curState : σ → String) : σ → Except String (Option String) :=
  fun es => (WasmGameWrapper.getCurrentPlayer get_current_player (curState es)).map some

/-! ### WasmGameEngineAdapter (src/src/engines/WasmGameEngineAdapter.ts) -/

namespace WasmGameEngineAdapter

/-- JS `String.prototype.startsWith`. -/
def strStartsWith (s pfx : String) : Bool :=
  pfx.toList.isPrefixOf s.toList

/-- Lines 39-45. -/
def mapWasmPlayerToSystemPlayer (wasmPlayer : String) : Except String PlayerId :=
  if wasmPlayer = "player1" then .ok .player1
  else if wasmPlayer = "player2" then .ok .player2
  else
    .error ("WASM implementation error: expected \"player1\" or \"player2\", got \""
      ++ wasmPlayer ++ "\"")

variable {σ : Type}

/-- Lines 49-70. `meta` is the metadata record the adapter copies into the
state (gameId, gameName, gameType). -/
def getInitialState (eng : WasmGameEngine σ) (es : σ) (meta : List (String × String)) :
    Except String (GameState × σ) :=
  let (wasmState, es1) := eng.getInitialState es
  match eng.getCurrentPlayer es1 with
  | .error e => .error e
  | .ok none => .error "WASM engine getCurrentPlayer() returned null/undefined"
  | .ok (some wasmCurrentPlayer) =>
    match mapWasmPlayerToSystemPlayer wasmCurrentPlayer with
    | .error e => .error e
    | .ok currentPlayer =>
      .ok ({ board := wasmState, currentPlayer := currentPlayer, moves := [],
             result := .ongoing, winner := none, metadata := meta }, es1)

/-- Lines 72-93. `now` stands for `Date.now()`; the i-th move gets
timestamp `now + i`. -/
def getValidMoves (eng : WasmGameEngine σ) (es : σ) (now : Nat) :
    Except String (List Move) :=
  let validMoves := eng.getValidMoves es
  match eng.getCurrentPlayer es with
  | .error e => .error e
  | .ok none => .error "WASM engine getCurrentPlayer() returned null/undefined"
  | .ok (some wasmCurrentPlayer) =>
    match mapWasmPlayerToSystemPlayer wasmCurrentPlayer with
    | .error e => .error e
    | .ok currentPlayer =>
      .ok (validMoves.enum.map (fun p =>
        { playerId := currentPlayer, data := p.2, timestamp := now + p.1 }))

/-- Lines 95-145. The reply to `apply_move`, the post-move game-over flag,
winner and current player are read off the updated engine state `es1`. -/
def applyMove (eng : WasmGameEngine σ) (es : σ) (state : GameState) (move : Move) :
    Except String (GameState × σ) :=
  let moveStr := move.data
  let (newWasmState, es1) := eng.applyMove es moveStr
  if strStartsWith newWasmState "ERROR:" then
    .error ("WASM apply_move failed: " ++ newWasmState)
  else
    let gameOver := eng.isGameOver es1
    let winner := if gameOver then eng.getWinner es1 else none
    match eng.getCurrentPlayer es1 with
    | .error e => .error e
    | .ok none => .error "WASM engine getCurrentPlayer() returned null/undefined after move"
    | .ok (some currentPlayer) =>
      match mapWasmPlayerToSystemPlayer currentPlayer with
      | .error e => .error e
      | .ok mappedCurrentPlayer =>
        let resultWinner : Except String (GameResultT × Option PlayerId) :=
          if gameOver then
            match winner with
            | some w =>
              if w = "draw" then .ok (.draw, none)
              else if w = "" then .ok (.draw, none)
              else
                match mapWasmPlayerToSystemPlayer w with
                | .error e => .error e
                | .ok mw => .ok (.win, some mw)
            | none => .ok (.draw, none)
          else .ok (.ongoing, none)
        match resultWinner with
        | .error e => .error e
        | .ok (result, mappedWinner) =>
          .ok ({ board := newWasmState, currentPlayer := mappedCurrentPlayer,
                 moves := state.moves ++ [move], result := result,
                 winner := mappedWinner, metadata := state.metadata }, es1)

/-- Lines 149-165: re-query the valid-move list and the current player
fresh, reject when the acting player is not the one the module reports,
otherwise test strict string membership. -/
def validateMove (eng : WasmGameEngine σ) (es : σ) (_state : GameState) (move : Move) :
    Except String Bool :=
  let validMoves := eng.getValidMoves es
  match eng.getCurrentPlayer es with
  | .error e => .error e
  | .ok wasmCurrentPlayer =>
    let expectedWasmPlayer := if move.playerId = .player1 then "player1" else "player2"
    if wasmCurrentPlayer = some expectedWasmPlayer then
      .ok (validMoves.contains move.data)
    else
      .ok false

/-- Lines 167-169. -/
def isGameOver (eng : WasmGameEngine σ) (es : σ) : Bool :=
  eng.isGameOver es

/-- Lines 171-184. -/
def getWinner (eng : WasmGameEngine σ) (es : σ) (state : GameState) :
    Except String (Option PlayerId) :=
  if state.result = .draw then .ok none
  else
    match eng.getWinner es with
    | none => .ok none
    | some winner =>
      if winner = "draw" then .ok none
      else if winner = "" then .ok none
      else
        match mapWasmPlayerToSystemPlayer winner with
        | .error e => .error e
        | .ok p => .ok (some p)

/-- Lines 186-194. -/
def getCurrentPlayer (eng : WasmGameEngine σ) (es : σ) : Except String PlayerId :=
  match eng.getCurrentPlayer es with
  | .error e => .error e
  | .ok none => .error "WASM engine getCurrentPlayer() returned null/undefined"
  | .ok (some wasmCurrentPlayer) => mapWasmPlayerToSystemPlayer wasmCurrentPlayer

/-- Lines 196-198. -/
def getBoardDisplay (eng : WasmGameEngine σ) (es : σ) : String :=
  eng.render es

end WasmGameEngineAdapter

/-! ### validateWasmGame (src/src/interfaces/WasmGameEngine.ts, lines 301-375)

A candidate byte buffer is abstracted by whether `WebAssembly.compile`
succeeds, whether instantiation (with or without the stub imports)
succeeds, and the export names of the instance. Every throw is caught and
turns into the result `false` (the function never crashes). -/

/-- Abstraction of a candidate module byte buffer. A buffer without the
magic header has `compiles = false`. -/
structure WasmCandidate where
  compiles : Bool
  instantiates : Bool
  exports : List String
deriving DecidableEq, Repr

def requiredFunctions : List String :=
  ["get_initial_state", "get_valid_moves", "apply_move", "is_game_over",
   "get_winner", "render"]

/-- The `requiredFunctions.every(...)` call of lines 353-361: `every`
stops at the first callback returning false, so at most the first missing
name is pushed onto `missingFunctions`. Returns (every-result, the pushed
names). -/
def everyCollect (exports : List String) : List String → Bool × List String
  | [] => (true, [])
  | fn :: rest =>
    if exports.contains fn then everyCollect exports rest
    else (false, [fn])

/-- `validateWasmGame`: first component is the returned boolean, second is
the `missingFunctions` array the source accumulates (it is only console
logged, never returned). A compile or instantiation throw is caught and
yields `(false, [])`. -/
def validateWasmGame (c : WasmCandidate) : Bool × List String :=
  if c.compiles && c.instantiates then
    let hasMemory := c.exports.contains "memory"
    let (hasRequiredFunctions, missingFunctions) := everyCollect c.exports requiredFunctions
    (hasMemory && hasRequiredFunctions, missingFunctions)
  else
    (false, [])

/-! ### HumanAgent (src/unnamed/part_008, lines 3-71)

`getMove` installs a resolver/rejecter pair for a fresh promise;
`submitMove`, `cancelMove` and the five-minute timer callback settle it at
most once, because each of them nulls the pair after use and checks it
before use. The promise machinery is embedded as a state with a `waiting`
flag (resolver non-null) and the settlement of the most recent `getMove`
promise. -/

instance {ε α : Type} [DecidableEq ε] [DecidableEq α] : DecidableEq (Except ε α) := by
  intro x y
  cases x with
  | ok a =>
    cases y with
    | ok b =>
      by_cases h : a = b
      · exact isTrue (by rw [h])
      · exact isFalse (by intro hc; cases hc; exact h rfl)
    | error e => exact isFalse (by intro hc; cases hc)
  | error d =>
    cases y with
    | ok b => exact isFalse (by intro hc; cases hc)
    | error e =>
      by_cases h : d = e
      · exact isTrue (by rw [h])
      · exact isFalse (by intro hc; cases hc; exact h rfl)

def HUMAN_MOVE_TIMEOUT_MS : Nat := 300000

structure HumanAgentState where
  waiting : Bool
  settled : Option (Except String Move)
deriving DecidableEq, Repr

namespace HumanAgent

/-- `getMove`: a fresh pending promise. -/
def getMove (_s : HumanAgentState) : HumanAgentState :=
  { waiting := true, settled := none }

/-- `submitMove(move, playerId)` (lines 33-46); `now` stands for
`Date.now()`. With no pending resolver it does nothing. -/
def submitMove (s : HumanAgentState) (data : String) (position : Option Position)
    (playerId : PlayerId) (now : Nat) : HumanAgentState :=
  if s.waiting then
    { waiting := false,
      settled := some (.ok { playerId := playerId, position := position,
                             data := data, timestamp := now }) }
  else s

/-- `cancelMove` (lines 48-54). -/
def cancelMove (s : HumanAgentState) : HumanAgentState :=
  if s.waiting then
    { waiting := false, settled := some (.error "Move cancelled by user") }
  else s

/-- The `setTimeout` callback of lines 23-29 firing (after
`HUMAN_MOVE_TIMEOUT_MS` milliseconds) while the rejecter is still set. -/
def timeoutFire (s : HumanAgentState) : HumanAgentState :=
  if s.waiting then
    { waiting := false,
      settled := some (.error "Move timeout - no move received from human player") }
  else s

end HumanAgent

/-! ### LLMAgent (src/unnamed/part_008, lines 77-401) -/

/-- The apostrophe character (code 39), used in template strings. -/
def apos : String := String.mk [Char.ofNat 39]

/-- JS `String.prototype.toLowerCase` (per-character lowering). -/
def jsToLower (s : String) : String :=
  String.mk (s.toList.map Char.toLower)

/-- JS `String.prototype.trim`: strip leading and trailing whitespace. -/
def jsTrim (s : String) : String :=
  String.mk (((s.toList.dropWhile Char.isWhitespace).reverse.dropWhile
    Char.isWhitespace).reverse)

namespace LLMAgent

/-- `haystack.includes(needle)` from JS. -/
def strIncludes (haystack needle : String) : Bool :=
  (List.range (haystack.toList.length + 1)).any
    (fun i => needle.toList.isPrefixOf (haystack.toList.drop i))

/-- A JS `\w` word character: ASCII letter, digit or underscore. -/
def isWordChar (c : Char) : Bool :=
  c.isAlphanum || c = '_'

/-- Helper for `content.match(/(\w+)/g)`: maximal runs of word
characters, in order; `acc` holds the current run reversed. -/
def wordTokensAux : List Char → List Char → List String
  | [], acc => if acc.isEmpty then [] else [String.mk acc.reverse]
  | c :: cs, acc =>
    if isWordChar c then wordTokensAux cs (c :: acc)
    else if acc.isEmpty then wordTokensAux cs []
    else String.mk acc.reverse :: wordTokensAux cs []

def wordTokens (s : String) : List String :=
  wordTokensAux s.toList []

/-- The substring-containment pass of lines 267-278: for each valid move
in order, case-sensitive containment in the reply, then case-insensitive
containment, before moving on to the next valid move. -/
def findContainedMove : List String → String → Option String
  | [], _ => none
  | validMove :: rest, content =>
    if strIncludes content validMove then some validMove
    else if strIncludes (jsToLower content) (jsToLower validMove) then some validMove
    else findContainedMove rest content

/-- The generic-pattern pass of lines 280-301: for each extracted token in
order, exact membership in the valid-move list, then the first
case-insensitively equal valid move. -/
def tokenLookup : List String → List String → Option String
  | [], _ => none
  | candidate :: rest, validMoveStrings =>
    if validMoveStrings.contains candidate then some candidate
    else
      match validMoveStrings.find? (fun m => jsToLower m = jsToLower candidate) with
      | some m => some m
      | none => tokenLookup rest validMoveStrings

/-- `parseMove` (lines 240-307). The source derives `validMoveStrings`
from `gameEngine.getValidMoves(state)` filtered to the acting player (see
`llmTryBody` below); the resolution itself is pure. If nothing matches the
trimmed raw reply is returned for the engine to reject. -/
def parseMove (validMoveStrings : List String) (response : String) : String :=
  let content := jsTrim response
  if validMoveStrings.contains content then content
  else
    match validMoveStrings.find? (fun m => jsToLower m = jsToLower content) with
    | some m => m
    | none =>
      match findContainedMove validMoveStrings content with
      | some m => m
      | none =>
        match tokenLookup (wordTokens content) validMoveStrings with
        | some m => m
        | none => content

/-- The error thrown on a confirmed invalid move (line 355). -/
def invalidMoveMsg (name moveData playerLabel : String) : String :=
  "INVALID MOVE: " ++ name ++ " generated invalid move \"" ++ moveData
    ++ "\" for player " ++ playerLabel

/-- The catch-all rewrap of line 362; `${error}` stringifies the caught
Error as "Error: " followed by its message. -/
def generationErrorMsg (name inner : String) : String :=
  "LLM GENERATION ERROR: " ++ name ++ " failed to generate move: Error: " ++ inner

variable {σ : Type}

/-- The try block of one iteration of the `while` loop in `getMove`
(lines 321-358). `reply` is the outcome of `llmService.callLLM` for this
iteration; `now` stands for `Date.now()`. Building the prompts queries the
engine (board display and valid moves); the prompt text influences no
control flow, but an engine error thrown there escapes this block. -/
def llmTryBody (eng : WasmGameEngine σ) (es : σ) (st : GameState) (playerId : PlayerId)
    (name : String) (now : Nat) (reply : Except String String) : Except String Move :=
  match WasmGameEngineAdapter.getValidMoves eng es now with
  | .error e => .error e
  | .ok validMoves =>
    match reply with
    | .error e => .error e
    | .ok content =>
      let validMoveStrings := (validMoves.filter (fun m => m.playerId = playerId)).map
        (fun m => m.data)
      let moveData := parseMove validMoveStrings content
      let move : Move := { playerId := playerId, data := moveData, timestamp := now }
      match WasmGameEngineAdapter.validateMove eng es st move with
      | .error e => .error e
      | .ok true => .ok move
      | .ok false => .error (invalidMoveMsg name moveData playerId.label)

/-- `getMove` (lines 309-367). Every branch of the try block returns or
throws and the catch rethrows, so the `while (retryCount < maxRetries)`
loop runs its body exactly once: only the reply to the first call,
`replies 0`, is ever consumed. -/
def getMove (eng : WasmGameEngine σ) (es : σ) (st : GameState) (playerId : PlayerId)
    (name : String) (now : Nat) (cancelled : Bool)
    (replies : Nat → Except String String) : Except String Move :=
  if cancelled then .error "Agent operation cancelled"
  else
    match llmTryBody eng es st playerId name now (replies 0) with
    | .ok move => .ok move
    | .error e => .error (generationErrorMsg name e)

end LLMAgent

/-! ### MatchController (src/src/utils/MatchController.ts)

The engine given to the controller is the adapter over a `WasmGameEngine`;
all `...Async` probes fall through to the synchronous adapter methods
(the adapter implements none of the async variants). An agent is its name
and its `getMove`; hook invocations (`onGameStart`, `onGameEnd`) are
recorded by the loop, matching the log-only hooks of both agent classes.
Transcript entries are embedded without their wall-clock `[ISO]` stamp. -/

structure AgentM where
  name : String
  type : String
  getMove : GameState → PlayerId → Except String Move

inductive LoopExit where
  | gameOver
  | errored (msg : String)
  | fatal (msg : String)
  | fuelOut
deriving DecidableEq, Repr

/-- Everything one call of `gameLoop` produces: final controller state and
the transcript lines, `onMoveAttempt` / `onError` notifications and hook
invocations emitted during the call, in order. `fatal` marks an exception
thrown outside the loop's try block (it propagates to `startMatch`). -/
structure LoopResult (σ : Type) where
  state : GameState
  es : σ
  transcript : List String
  moveEvents : List (Move × Bool)
  errors : List String
  startHooks : List PlayerId
  endHooks : List (PlayerId × String)
  exit : LoopExit

def mkExit {σ : Type} (st : GameState) (es : σ) (x : LoopExit) : LoopResult σ :=
  { state := st, es := es, transcript := [], moveEvents := [], errors := [],
    startHooks := [], endHooks := [], exit := x }

/-- `JSON.stringify(move.position || move.data)` (lines 131 and 144). -/
def mvJson (m : Move) : String :=
  match m.position with
  | some p => "\x7b\"row\":" ++ toString p.row ++ ",\"col\":" ++ toString p.col ++ "\x7d"
  | none => "\"" ++ m.data ++ "\""

def turnHeader (agent : AgentM) (cp : PlayerId) : String :=
  "\n--- " ++ agent.name ++ apos ++ "s turn (" ++ cp.label ++ ") ---"

/-- Line 149; `${error}` stringifies as "Error: " plus the message. -/
def turnErrorLine (agent : AgentM) (e : String) : String :=
  "Error during " ++ agent.name ++ apos ++ "s turn: Error: " ++ e

/-- Outcome of the try block of one loop iteration (lines 123-152),
together with the transcript lines it appends. -/
inductive TurnOut (σ : Type) where
  | applied (st' : GameState) (es' : σ) (lines : List String) (mv : Move)
  | invalid (lines : List String) (mv : Move)
  | threw (e : String) (lines : List String)

/-- The try block of one loop iteration: ask the agent, validate, apply;
any throw from those three is caught in one place, which logs the error
line and returns from the loop. -/
def turnTry {σ : Type} (eng : WasmGameEngine σ) (es : σ) (st : GameState)
    (agent : AgentM) (cp : PlayerId) : TurnOut σ :=
  let header := turnHeader agent cp
  match agent.getMove st cp with
  | .error e => .threw e [header, turnErrorLine agent e]
  | .ok move =>
    match WasmGameEngineAdapter.validateMove eng es st move with
    | .error e => .threw e [header, turnErrorLine agent e]
    | .ok true =>
      match WasmGameEngineAdapter.applyMove eng es st move with
      | .error e => .threw e [header, turnErrorLine agent e]
      | .ok (st', es') =>
        .applied st' es'
          [header, "Move: " ++ mvJson move,
           "Board:\n" ++ WasmGameEngineAdapter.getBoardDisplay eng es'] move
    | .ok false =>
      .invalid [header, "Invalid move attempted: " ++ mvJson move] move

/-- Players with a registered agent, in registration order
(player1 before player2 in every configuration built by the app). -/
def registeredPlayers (agents : PlayerId → Option AgentM) : List PlayerId :=
  [PlayerId.player1, PlayerId.player2].filter (fun p => (agents p).isSome)

/-- `endMatch` (lines 157-190): compute the winner (a bad winner label from
the module throws out of the controller), log the outcome, and invoke each
registered agent's `onGameEnd` hook with its verdict. -/
def endMatch {σ : Type} (eng : WasmGameEngine σ) (agents : PlayerId → Option AgentM)
    (st : GameState) (es : σ) : LoopResult σ :=
  match WasmGameEngineAdapter.getWinner eng es st with
  | .error e => mkExit st es (.fatal e)
  | .ok winner =>
    let winnerLine :=
      match winner with
      | some w =>
        "Winner: " ++ (match agents w with | some a => a.name | none => "undefined")
          ++ " (" ++ w.label ++ ")"
      | none => "Result: Draw"
    let hooks := (registeredPlayers agents).map (fun p =>
      (p, if winner = some p then "win" else if winner = none then "draw" else "loss"))
    { state := st, es := es, transcript := ["\n--- Game Over ---", winnerLine],
      moveEvents := [], errors := [], startHooks := [], endHooks := hooks,
      exit := .gameOver }

/-- `gameLoop` (lines 109-155), fuelled. Each iteration: game-over check
(on to `endMatch` when true); resolve the acting player (a throw here is
outside the try block and propagates, `fatal`); locate the agent (missing
agent likewise `fatal`); first-turn `onGameStart` hook; then the try block.
A caught error logs, notifies `onError` and returns (`errored`); an
invalid move logs, notifies `onMoveAttempt(move, false)` and loops on the
same state; a valid move applies, logs, notifies and loops. -/
def gameLoop {σ : Type} (eng : WasmGameEngine σ) (agents : PlayerId → Option AgentM) :
    Nat → GameState → σ → List PlayerId → LoopResult σ
  | 0, st, es, _ => mkExit st es .fuelOut
  | fuel + 1, st, es, started =>
    if WasmGameEngineAdapter.isGameOver eng es then endMatch eng agents st es
    else
      match WasmGameEngineAdapter.getCurrentPlayer eng es with
      | .error e => mkExit st es (.fatal e)
      | .ok cp =>
        match agents cp with
        | none => mkExit st es (.fatal ("No agent found for player " ++ cp.label))
        | some agent =>
          let newStart := if cp ∈ started then [] else [cp]
          let started' := newStart ++ started
          match turnTry eng es st agent cp with
          | .threw e lines =>
            { state := st, es := es, transcript := lines, moveEvents := [],
              errors := [e], startHooks := newStart, endHooks := [],
              exit := .errored e }
          | .invalid lines mv =>
            let r := gameLoop eng agents fuel st es started'
            { r with transcript := lines ++ r.transcript,
                     moveEvents := (mv, false) :: r.moveEvents,
                     startHooks := newStart ++ r.startHooks }
          | .applied st' es' lines mv =>
            let r := gameLoop eng agents fuel st' es' started'
            { r with transcript := lines ++ r.transcript,
                     moveEvents := (mv, true) :: r.moveEvents,
                     startHooks := newStart ++ r.startHooks }

/-! ## Theorems settling the claims -/

/-! ### Further marshaling lemmas (for C4) -/

theorem scanToNul_eq_length (l : List Nat) (h : 0 ∉ l) : scanToNul l = l.length := by
  induction l with
  | nil => rfl
  | cons b rest ih =>
    have hb : b ≠ 0 := fun hb0 => h (by simp [hb0])
    simp only [scanToNul, List.length_cons, if_neg hb]
    rw [ih (fun hm => h (by simp [hm]))]

theorem drop_memSet (mem bytes : List Nat) (ptr : Nat) (h : ptr ≤ mem.length) :
    (memSet mem bytes ptr).drop ptr = bytes ++ mem.drop (ptr + bytes.length) := by
  unfold memSet
  have hl : (mem.take ptr).length = ptr := by
    rw [List.length_take]; omega
  calc (mem.take ptr ++ bytes ++ mem.drop (ptr + bytes.length)).drop ptr
      = (mem.take ptr ++ (bytes ++ mem.drop (ptr + bytes.length))).drop
          (mem.take ptr).length := by rw [hl, List.append_assoc]
    _ = bytes ++ mem.drop (ptr + bytes.length) := List.drop_left _ _

theorem pages_cover (len : Nat) :
    len ≤ ((len + PAGE_SIZE - 1) / PAGE_SIZE) * PAGE_SIZE := by
  have hd := Nat.div_add_mod (len + PAGE_SIZE - 1) PAGE_SIZE
  have hm : (len + PAGE_SIZE - 1) % PAGE_SIZE < PAGE_SIZE :=
    Nat.mod_lt _ (by norm_num [PAGE_SIZE])
  unfold PAGE_SIZE at *
  omega

/-- C4 (confirmed): for every string with no NUL byte, a successful
`writeStringToWasm` followed by `readStringFromWasm` at the returned
pointer yields the string back — the quantification over `malloc` covers
both the allocator path (`some alloc`, success meaning the allocator
pointer left room for the bytes) and the grow-by-pages fallback path
(`none`), and the fallback write always succeeds; moreover
`readStringFromWasm` scans forward only to the first NUL byte or the end
of the buffer, whichever comes first, and never reads past the end. -/
theorem C4_marshal_roundtrip :
    (∀ (malloc : Option (Nat → Nat)) (mem s : List Nat) (ptr : Nat) (mem' : List Nat),
      0 ∉ s → writeStringToWasm malloc mem s = .ok (ptr, mem') →
      readStringFromWasm mem' ptr = s)
    ∧ (∀ mem s : List Nat, ∃ ptr mem', writeStringToWasm none mem s = .ok (ptr, mem'))
    ∧ (∀ (mem : List Nat) (ptr : Nat),
        (readStringFromWasm mem ptr).length ≤ mem.length - ptr)
    ∧ (∀ (mem : List Nat) (ptr : Nat) (pre rest : List Nat),
        mem.drop ptr = pre ++ 0 :: rest → 0 ∉ pre → readStringFromWasm mem ptr = pre)
    ∧ (∀ (mem : List Nat) (ptr : Nat), 0 ∉ mem.drop ptr →
        readStringFromWasm mem ptr = mem.drop ptr) := by
  refine ⟨?_, ?_, ?_, ?_, ?_⟩
  · intro malloc mem s ptr mem' hs hw
    cases malloc with
    | some alloc =>
      unfold writeStringToWasm at hw
      simp only at hw
      split at hw
      case isTrue hle =>
        rw [Except.ok.injEq, Prod.mk.injEq] at hw
        obtain ⟨hptr, hmem⟩ := hw
        subst hptr
        subst hmem
        have hptrle : alloc (s ++ [0]).length ≤ mem.length := by omega
        have hdrop : (memSet mem (s ++ [0]) (alloc (s ++ [0]).length)).drop
            (alloc (s ++ [0]).length) =
            s ++ 0 :: mem.drop (alloc (s ++ [0]).length + (s ++ [0]).length) := by
          rw [drop_memSet mem (s ++ [0]) _ hptrle]
          simp
        exact readStringFromWasm_of_drop _ _ s _ hdrop hs
      case isFalse hgt => cases hw
    | none =>
      unfold writeStringToWasm at hw
      simp only at hw
      rw [Except.ok.injEq, Prod.mk.injEq] at hw
      obtain ⟨hptr, hmem⟩ := hw
      subst hptr
      subst hmem
      have hcover : (s ++ [0]).length ≤
          (((s ++ [0]).length + PAGE_SIZE - 1) / PAGE_SIZE) * PAGE_SIZE :=
        pages_cover _
      have hlen : (mem ++ List.replicate
          ((((s ++ [0]).length + PAGE_SIZE - 1) / PAGE_SIZE) * PAGE_SIZE) 0).length =
          mem.length + (((s ++ [0]).length + PAGE_SIZE - 1) / PAGE_SIZE) * PAGE_SIZE := by
        simp
      have hptrle : (mem ++ List.replicate
            ((((s ++ [0]).length + PAGE_SIZE - 1) / PAGE_SIZE) * PAGE_SIZE) 0).length -
          (s ++ [0]).length ≤ (mem ++ List.replicate
            ((((s ++ [0]).length + PAGE_SIZE - 1) / PAGE_SIZE) * PAGE_SIZE) 0).length := by
        omega
      have hdropall : (mem ++ List.replicate
            ((((s ++ [0]).length + PAGE_SIZE - 1) / PAGE_SIZE) * PAGE_SIZE) 0).drop
          ((mem ++ List.replicate
            ((((s ++ [0]).length + PAGE_SIZE - 1) / PAGE_SIZE) * PAGE_SIZE) 0).length -
            (s ++ [0]).length + (s ++ [0]).length) = [] := by
        apply List.drop_eq_nil_of_le
        omega
      have hdrop := drop_memSet (mem ++ List.replicate
          ((((s ++ [0]).length + PAGE_SIZE - 1) / PAGE_SIZE) * PAGE_SIZE) 0) (s ++ [0])
          ((mem ++ List.replicate
            ((((s ++ [0]).length + PAGE_SIZE - 1) / PAGE_SIZE) * PAGE_SIZE) 0).length -
            (s ++ [0]).length) hptrle
      rw [hdropall] at hdrop
      refine readStringFromWasm_of_drop _ _ s [] ?_ hs
      rw [hdrop]
      simp
  · intro mem s
    exact ⟨_, _, rfl⟩
  · intro mem ptr
    unfold readStringFromWasm
    rw [List.length_take]
    have := List.length_drop ptr mem
    omega
  · intro mem ptr pre rest hdrop hpre
    exact readStringFromWasm_of_drop mem ptr pre rest hdrop hpre
  · intro mem ptr h
    unfold readStringFromWasm
    rw [scanToNul_eq_length _ h, List.take_length]

/-- C4 witness: the round-trip at a concrete memory and string on both
paths, and the bounded-scan facts at a concrete buffer. -/
theorem C4_marshal_roundtrip_witness :
    readStringFromWasm (memSet [9, 9, 9, 9, 9] ([7, 8] ++ [0]) 1) 1 = [7, 8]
    ∧ (∃ ptr mem', writeStringToWasm none [9] [7, 8] = .ok (ptr, mem'))
    ∧ readStringFromWasm [5, 0, 6] 0 = [5] := by
  refine ⟨?_, C4_marshal_roundtrip.2.1 [9] [7, 8], ?_⟩
  · exact C4_marshal_roundtrip.1 (some (fun _ => 1)) [9, 9, 9, 9, 9] [7, 8] 1 _
      (by decide) rfl
  · exact C4_marshal_roundtrip.2.2.2.1 [5, 0, 6] 0 [5] [6] (by decide) (by decide)

/-- C7 (confirmed): the adapter's player-label translation maps "player1"
and "player2" to the two canonical identities and throws a distinct
integration error on every other label — it never succeeds with a default
player (an `.error` result carries no `PlayerId` at all). -/
theorem C7_player_label_mapping :
    WasmGameEngineAdapter.mapWasmPlayerToSystemPlayer "player1" = .ok .player1
    ∧ WasmGameEngineAdapter.mapWasmPlayerToSystemPlayer "player2" = .ok .player2
    ∧ ∀ s : String, s ≠ "player1" → s ≠ "player2" →
        WasmGameEngineAdapter.mapWasmPlayerToSystemPlayer s =
          .error ("WASM implementation error: expected \"player1\" or \"player2\", got \""
            ++ s ++ "\"") := by
  refine ⟨rfl, rfl, ?_⟩
  intro s h1 h2
  simp [WasmGameEngineAdapter.mapWasmPlayerToSystemPlayer, h1, h2]

/-- C7 witness: the third label "draw" is rejected with the integration
error, not coerced. -/
theorem C7_player_label_mapping_witness :
    WasmGameEngineAdapter.mapWasmPlayerToSystemPlayer "draw" =
      .error ("WASM implementation error: expected \"player1\" or \"player2\", got \""
        ++ "draw" ++ "\"") :=
  C7_player_label_mapping.2.2 "draw" (by decide) (by decide)

/-- C8 (confirmed): with one pending `getMove`, a `submitMove` before the
timer fires settles the promise with a move carrying the submitted data
and the given player id; the timer firing with no submission rejects with
the timeout error, and the timeout bound is 300000 ms (five minutes); a
second `submitMove` without a new `getMove` changes nothing. -/
theorem C8_human_agent_submit_timeout_idempotent :
    (∀ (s : HumanAgentState) (d : String) (pos : Option Position)
        (pid : PlayerId) (now : Nat),
      (HumanAgent.submitMove (HumanAgent.getMove s) d pos pid now).settled =
        some (.ok { playerId := pid, position := pos, data := d, timestamp := now }))
    ∧ (∀ s : HumanAgentState,
        (HumanAgent.timeoutFire (HumanAgent.getMove s)).settled =
          some (.error "Move timeout - no move received from human player"))
    ∧ HUMAN_MOVE_TIMEOUT_MS = 300000
    ∧ (∀ (s : HumanAgentState) (d : String) (pos : Option Position)
        (pid : PlayerId) (now : Nat) (d' : String) (pos' : Option Position)
        (pid' : PlayerId) (now' : Nat),
      HumanAgent.submitMove
          (HumanAgent.submitMove (HumanAgent.getMove s) d pos pid now) d' pos' pid' now' =
        HumanAgent.submitMove (HumanAgent.getMove s) d pos pid now) := by
  refine ⟨fun s d pos pid now => rfl, fun s => rfl, rfl, fun s d pos pid now d' pos' pid' now' => rfl⟩

/-! ### C10: engine and bridge for the missing optional export -/

/-- C10 (confirmed): a wrapper over a module that does not export
`get_current_player` answers "player1" for every state, and any adapter
whose engine reads the current player through such a wrapper reports
player1 as the acting player (no error is raised). -/
theorem C10_absent_get_current_player_defaults_to_player1 :
    (∀ st : String, WasmGameWrapper.getCurrentPlayer none st = .ok "player1")
    ∧ ∀ (σ : Type) (eng : WasmGameEngine σ) (curState : σ → String) (es : σ),
        eng.getCurrentPlayer = wrapperCurrentPlayer none curState →
        WasmGameEngineAdapter.getCurrentPlayer eng es = .ok .player1 := by
  constructor
  · intro st; rfl
  · intro σ eng curState es h
    unfold WasmGameEngineAdapter.getCurrentPlayer
    rw [h]
    rfl

/-- Concrete engine whose current-player method is the wrapper bridge over
a module with no `get_current_player` export. -/
def engNoCurrentPlayer : WasmGameEngine String :=
  { getInitialState := fun s => (s, s)
    getValidMoves := fun _ => []
    getCurrentPlayer := wrapperCurrentPlayer none id
    applyMove := fun _ m => (m, m)
    isGameOver := fun _ => false
    getWinner := fun _ => none
    render := fun _ => "" }

/-- C10 witness: the adapter over the bridge engine reports player1. -/
theorem C10_absent_get_current_player_witness :
    WasmGameEngineAdapter.getCurrentPlayer engNoCurrentPlayer "state0" = .ok .player1 :=
  C10_absent_get_current_player_defaults_to_player1.2 String engNoCurrentPlayer id "state0" rfl

/-! ### C1: validateMove tests strict string equality only -/

/-- Modelled from the spec wording of claim C1 only (for comparison with
the source `validateMove`): a move datum counted as present when it is
byte-identical or case-insensitively identical to a listed move. -/
def specMoveLegal (validMoves : List String) (d : String) : Bool :=
  validMoves.any (fun v => v == d || jsToLower v == jsToLower d)

/-- A neutral host-side state value (the adapter's `validateMove` ignores
its state argument). -/
def st0 : GameState :=
  { board := "", currentPlayer := .player1, moves := [], result := .ongoing }

/-- Engine whose fresh valid-move query returns ["e2e4"] with player1 to
move. -/
def engC1 : WasmGameEngine Unit :=
  { getInitialState := fun u => ("", u)
    getValidMoves := fun _ => ["e2e4"]
    getCurrentPlayer := fun _ => .ok (some "player1")
    applyMove := fun u _ => ("", u)
    isGameOver := fun _ => false
    getWinner := fun _ => none
    render := fun _ => "" }

def mvC1 : Move := { playerId := .player1, data := "E2E4", timestamp := 0 }

/-- C1 counterexample: the move "E2E4" is case-insensitively identical to
the listed move "e2e4" and its acting player is exactly the player the
engine reports, yet `validateMove` returns false — the source tests
byte-identity only (`includes`), so the claim's "or case-insensitively
identical" direction fails. -/
theorem C1_counterexample :
    WasmGameEngineAdapter.validateMove engC1 () st0 mvC1 = .ok false
    ∧ WasmGameEngineAdapter.getCurrentPlayer engC1 () = .ok mvC1.playerId
    ∧ specMoveLegal (engC1.getValidMoves ()) mvC1.data = true := by
  refine ⟨rfl, rfl, by decide⟩

/-- C1 (corrected): `validateMove` returns true iff the engine's fresh
current-player query reports exactly the acting player's label and the
move's data string is byte-identical to an entry of the fresh valid-move
list (case-insensitive equality is not accepted). -/
theorem C1_validateMove_strict_equality :
    ∀ (σ : Type) (eng : WasmGameEngine σ) (es : σ) (st : GameState) (mv : Move),
      WasmGameEngineAdapter.validateMove eng es st mv = .ok true ↔
        (eng.getCurrentPlayer es = .ok (some mv.playerId.label)
          ∧ mv.data ∈ eng.getValidMoves es) := by
  intro σ eng es st mv
  unfold WasmGameEngineAdapter.validateMove
  have hexp : (if mv.playerId = .player1 then "player1" else "player2") =
      mv.playerId.label := by
    cases mv.playerId <;> rfl
  cases h : eng.getCurrentPlayer es with
  | error e => simp [h]
  | ok wcp =>
    simp only [h, hexp]
    by_cases hcp : wcp = some mv.playerId.label
    · subst hcp
      simp [List.contains, List.elem_iff]
    · simp [hcp]

def mvC1ok : Move := { playerId := .player1, data := "e2e4", timestamp := 0 }

/-- C1 witness: a byte-identical move by the reported player is accepted. -/
theorem C1_validateMove_strict_equality_witness :
    WasmGameEngineAdapter.validateMove engC1 () st0 mvC1ok = .ok true :=
  (C1_validateMove_strict_equality Unit engC1 () st0 mvC1ok).mpr ⟨rfl, by decide⟩

/-! ### C2: applyMove on an ERROR-prefixed reply -/

/-- Engine whose apply reply is clean but whose post-move current-player
label is unrecognized. -/
def engC2ce : WasmGameEngine Unit :=
  { getInitialState := fun u => ("", u)
    getValidMoves := fun _ => []
    getCurrentPlayer := fun _ => .ok (some "observer")
    applyMove := fun u _ => ("S2", u)
    isGameOver := fun _ => false
    getWinner := fun _ => none
    render := fun _ => "" }

def mvC2 : Move := { playerId := .player1, data := "m", timestamp := 0 }

/-- C2 counterexample: with a reply that is not ERROR-prefixed, `applyMove`
can still throw instead of returning a state whose board is the reply —
here the module reports the unrecognized post-move player label
"observer", so the claim's unconditional "otherwise it returns a new
state whose board is the module's reply" fails. -/
theorem C2_counterexample :
    WasmGameEngineAdapter.strStartsWith (engC2ce.applyMove () mvC2.data).1 "ERROR:" = false
    ∧ WasmGameEngineAdapter.applyMove engC2ce () st0 mvC2 =
        .error ("WASM implementation error: expected \"player1\" or \"player2\", got \"observer\"") := by
  exact ⟨by decide, rfl⟩

/-- C2 (corrected): if the module's apply reply starts with the reserved
"ERROR:" tag then `applyMove` raises (returning no state at all, hence
never the old state); otherwise, provided the module reports a recognized
post-move current-player label (and a recognized winner label whenever it
reports the game over), `applyMove` returns a new state whose board is
the module's reply, with the move appended. -/
theorem C2_applyMove_error_reply :
    ∀ (σ : Type) (eng : WasmGameEngine σ) (es : σ) (st : GameState) (mv : Move)
      (reply : String) (es1 : σ),
      eng.applyMove es mv.data = (reply, es1) →
      (WasmGameEngineAdapter.strStartsWith reply "ERROR:" = true →
        WasmGameEngineAdapter.applyMove eng es st mv =
          .error ("WASM apply_move failed: " ++ reply))
      ∧ (WasmGameEngineAdapter.strStartsWith reply "ERROR:" = false →
         ∀ cp : String, eng.getCurrentPlayer es1 = .ok (some cp) →
           (cp = "player1" ∨ cp = "player2") →
           (∀ w : String, eng.isGameOver es1 = true → eng.getWinner es1 = some w →
             w = "draw" ∨ w = "" ∨ w = "player1" ∨ w = "player2") →
           ∃ st' : GameState,
             WasmGameEngineAdapter.applyMove eng es st mv = .ok (st', es1)
             ∧ st'.board = reply ∧ st'.moves = st.moves ++ [mv]) := by
  intro σ eng es st mv reply es1 happ
  simp only [WasmGameEngineAdapter.applyMove, happ]
  constructor
  · intro hpfx
    simp [hpfx]
  · intro hpfx cp hcp hcp12 hwlab
    have hmap : ∃ p : PlayerId,
        WasmGameEngineAdapter.mapWasmPlayerToSystemPlayer cp = .ok p := by
      rcases hcp12 with h1 | h2
      · exact ⟨.player1, by rw [h1]; rfl⟩
      · exact ⟨.player2, by rw [h2]; rfl⟩
    obtain ⟨p, hp⟩ := hmap
    cases hgo : eng.isGameOver es1 with
    | false =>
      simp only [hpfx, Bool.false_eq_true, if_false, hcp, hp, hgo]
      exact ⟨_, rfl, rfl, rfl⟩
    | true =>
      cases hwin : eng.getWinner es1 with
      | none =>
        simp only [hpfx, Bool.false_eq_true, if_false, hcp, hp, hgo, hwin, if_true]
        exact ⟨_, rfl, rfl, rfl⟩
      | some w =>
        rcases hwlab w hgo hwin with hw | hw | hw | hw
        · subst hw
          simp only [hpfx, Bool.false_eq_true, if_false, hcp, hp, hgo, hwin, if_true]
          exact ⟨_, rfl, rfl, rfl⟩
        · subst hw
          simp only [hpfx, Bool.false_eq_true, if_false, hcp, hp, hgo, hwin, if_true]
          exact ⟨_, rfl, rfl, rfl⟩
        · subst hw
          simp only [hpfx, Bool.false_eq_true, if_false, hcp, hp, hgo, hwin, if_true]
          exact ⟨_, rfl, rfl, rfl⟩
        · subst hw
          simp only [hpfx, Bool.false_eq_true, if_false, hcp, hp, hgo, hwin, if_true]
          exact ⟨_, rfl, rfl, rfl⟩

/-- Engine that rejects the move with an ERROR-prefixed reply. -/
def engC2err : WasmGameEngine Unit :=
  { getInitialState := fun u => ("", u)
    getValidMoves := fun _ => []
    getCurrentPlayer := fun _ => .ok (some "player1")
    applyMove := fun u _ => ("ERROR: bad move", u)
    isGameOver := fun _ => false
    getWinner := fun _ => none
    render := fun _ => "" }

/-- Engine whose apply succeeds with reply "S2" and player2 to move. -/
def engC2ok : WasmGameEngine Unit :=
  { getInitialState := fun u => ("", u)
    getValidMoves := fun _ => []
    getCurrentPlayer := fun _ => .ok (some "player2")
    applyMove := fun u _ => ("S2", u)
    isGameOver := fun _ => false
    getWinner := fun _ => none
    render := fun _ => "" }

/-- C2 witness: both branches of the corrected claim at concrete engines. -/
theorem C2_applyMove_error_reply_witness :
    WasmGameEngineAdapter.applyMove engC2err () st0 mvC2 =
      .error ("WASM apply_move failed: " ++ "ERROR: bad move")
    ∧ ∃ st' : GameState,
        WasmGameEngineAdapter.applyMove engC2ok () st0 mvC2 = .ok (st', ())
        ∧ st'.board = "S2" ∧ st'.moves = st0.moves ++ [mvC2] :=
  ⟨(C2_applyMove_error_reply Unit engC2err () st0 mvC2 "ERROR: bad move" () rfl).1
      (by decide),
   (C2_applyMove_error_reply Unit engC2ok () st0 mvC2 "S2" () rfl).2 (by decide)
      "player2" rfl (Or.inr rfl)
      (fun w hgo _ => absurd hgo (by decide))⟩

/-! ### C9: structural validation reports a single boolean -/

theorem contains_iff_mem (l : List String) (a : String) : l.contains a = true ↔ a ∈ l := by
  simp [List.contains, List.elem_iff]

theorem everyCollect_spec (exports : List String) (l : List String) :
    everyCollect exports l =
      (l.all (fun fn => exports.contains fn),
       (l.filter (fun fn => !(exports.contains fn))).take 1) := by
  induction l with
  | nil => rfl
  | cons fn rest ih =>
    simp only [everyCollect, List.all_cons, List.filter_cons]
    cases h : exports.contains fn with
    | true => simp [h, ih]
    | false => simp [h]

theorem validateWasmGame_eq (c : WasmCandidate) :
    validateWasmGame c =
      if c.compiles && c.instantiates then
        (c.exports.contains "memory" && requiredFunctions.all (fun fn => c.exports.contains fn),
         (requiredFunctions.filter (fun fn => !(c.exports.contains fn))).take 1)
      else (false, []) := by
  unfold validateWasmGame
  rw [everyCollect_spec]

/-- Candidate that compiles and instantiates but exports only a memory:
all six required functions are missing. -/
def candC9 : WasmCandidate :=
  { compiles := true, instantiates := true, exports := ["memory"] }

/-- C9 counterexample: with all six required functions missing, the
collected missing-function list holds only the first one (`every`
short-circuits), not each missing function individually, and the function
reports a single boolean false. -/
theorem C9_counterexample :
    (validateWasmGame candC9).2 = ["get_initial_state"]
    ∧ (requiredFunctions.filter (fun fn => !(candC9.exports.contains fn))).length = 6
    ∧ (validateWasmGame candC9).1 = false := by
  refine ⟨rfl, rfl, rfl⟩

/-- C9 (corrected): `validateWasmGame` reports a single pass/fail boolean
— true exactly when the candidate compiles, instantiates, exports a
memory and exports every required function; the missing-function list it
accumulates (only for console logging) contains at most the first missing
required export, and a candidate that fails to compile yields
`(false, [])` through the catch handler — a validation failure, never a
crash and never a cause listing. -/
theorem C9_validateWasmGame_single_boolean :
    ∀ c : WasmCandidate,
      (c.compiles = false → validateWasmGame c = (false, []))
      ∧ (validateWasmGame c).1 =
          (c.compiles && c.instantiates && c.exports.contains "memory"
            && requiredFunctions.all (fun fn => c.exports.contains fn))
      ∧ (c.compiles = true → c.instantiates = true →
          (validateWasmGame c).2 =
            (requiredFunctions.filter (fun fn => !(c.exports.contains fn))).take 1)
      ∧ (validateWasmGame c).2.length ≤ 1 := by
  intro c
  refine ⟨?_, ?_, ?_, ?_⟩
  · intro h
    rw [validateWasmGame_eq, h]
    simp
  · rw [validateWasmGame_eq]
    cases h : (c.compiles && c.instantiates) with
    | true => simp
    | false => simp
  · intro h1 h2
    rw [validateWasmGame_eq, h1, h2]
    simp
  · rw [validateWasmGame_eq]
    cases h : (c.compiles && c.instantiates) with
    | true =>
      simp only [if_true]
      have := List.length_take 1
        (requiredFunctions.filter (fun fn => !(c.exports.contains fn)))
      simp only [List.length_take]
      omega
    | false =>
      simp

/-- Candidate whose byte buffer does not compile (e.g. missing the magic
header). -/
def candC9bad : WasmCandidate :=
  { compiles := false, instantiates := false, exports := [] }

/-- C9 witness: the corrected claim at concrete candidates. -/
theorem C9_validateWasmGame_single_boolean_witness :
    validateWasmGame candC9bad = (false, [])
    ∧ (validateWasmGame candC9).2 =
        (requiredFunctions.filter (fun fn => !(candC9.exports.contains fn))).take 1 :=
  ⟨(C9_validateWasmGame_single_boolean candC9bad).1 rfl,
   (C9_validateWasmGame_single_boolean candC9).2.2.1 rfl rfl⟩

/-! ### C6: parseMove resolution order -/

theorem findContainedMove_mem :
    ∀ (l : List String) (content m : String),
      LLMAgent.findContainedMove l content = some m → m ∈ l := by
  intro l
  induction l with
  | nil => intro content m h; cases h
  | cons v rest ih =>
    intro content m h
    unfold LLMAgent.findContainedMove at h
    split at h
    · cases h; exact List.mem_cons_self _ _
    · split at h
      · cases h; exact List.mem_cons_self _ _
      · exact List.mem_cons_of_mem _ (ih content m h)

theorem tokenLookup_mem :
    ∀ (toks valid : List String) (m : String),
      LLMAgent.tokenLookup toks valid = some m → m ∈ valid := by
  intro toks
  induction toks with
  | nil => intro valid m h; cases h
  | cons t ts ih =>
    intro valid m h
    unfold LLMAgent.tokenLookup at h
    split at h
    · cases h
      next hc => exact (contains_iff_mem _ _).mp hc
    · split at h
      · next m' heq =>
          cases h
          exact List.mem_of_find?_eq_some heq
      · exact ih valid m h

/-- C6 (confirmed): `parseMove` tries exact match first, then the first
case-insensitively equal valid move, then substring containment, then the
word-token pass; whatever it returns is either a member of the valid-move
list or the raw trimmed reply returned unchanged for `validateMove` to
reject; and on the valid-move list ["e2e4","d2d4"] the reply
"I(apostrophe)ll play e2e4 to open the center" parses to "e2e4". -/
theorem C6_parseMove_resolution :
    (∀ (valid : List String) (r : String),
      LLMAgent.parseMove valid r ∈ valid ∨ LLMAgent.parseMove valid r = jsTrim r)
    ∧ (∀ (valid : List String) (r : String),
        jsTrim r ∈ valid → LLMAgent.parseMove valid r = jsTrim r)
    ∧ (∀ (valid : List String) (r m : String),
        jsTrim r ∉ valid →
        valid.find? (fun v => jsToLower v = jsToLower (jsTrim r)) = some m →
        LLMAgent.parseMove valid r = m)
    ∧ LLMAgent.parseMove ["e2e4", "d2d4"]
        ("I" ++ apos ++ "ll play e2e4 to open the center") = "e2e4" := by
  refine ⟨?_, ?_, ?_, by decide⟩
  · intro valid r
    unfold LLMAgent.parseMove
    dsimp only
    split
    · next hcon => exact Or.inl ((contains_iff_mem _ _).mp hcon)
    · split
      · next m heq => exact Or.inl (List.mem_of_find?_eq_some heq)
      · split
        · next m heq => exact Or.inl (findContainedMove_mem _ _ _ heq)
        · split
          · next m heq => exact Or.inl (tokenLookup_mem _ _ _ heq)
          · exact Or.inr rfl
  · intro valid r h
    unfold LLMAgent.parseMove
    dsimp only
    rw [if_pos ((contains_iff_mem _ _).mpr h)]
  · intro valid r m hnot hfind
    unfold LLMAgent.parseMove
    dsimp only
    rw [if_neg (fun hc => hnot ((contains_iff_mem _ _).mp hc)), hfind]

/-- C6 witness: the exact-match and case-insensitive stages at concrete
inputs. -/
theorem C6_parseMove_resolution_witness :
    LLMAgent.parseMove ["a b"] " a b " = jsTrim " a b "
    ∧ LLMAgent.parseMove ["E2e4"] "e2E4" = "E2e4" :=
  ⟨C6_parseMove_resolution.2.1 ["a b"] " a b " (by decide),
   C6_parseMove_resolution.2.2.1 ["E2e4"] "e2E4" "E2e4" (by decide) (by decide)⟩

/-! ### C3: loop invariant lemmas -/

theorem applyMove_ok_props {σ : Type} (eng : WasmGameEngine σ) (es : σ) (st : GameState)
    (mv : Move) (st' : GameState) (es' : σ)
    (h : WasmGameEngineAdapter.applyMove eng es st mv = .ok (st', es')) :
    st'.moves = st.moves ++ [mv]
    ∧ WasmGameEngineAdapter.getCurrentPlayer eng es' = .ok st'.currentPlayer := by
  unfold WasmGameEngineAdapter.applyMove at h
  rcases hx : eng.applyMove es mv.data with ⟨reply, es1⟩
  simp only [hx] at h
  by_cases hpfx : WasmGameEngineAdapter.strStartsWith reply "ERROR:" = true
  · rw [if_pos hpfx] at h; cases h
  · rw [if_neg hpfx] at h
    cases hgcp : eng.getCurrentPlayer es1 with
    | error e => simp only [hgcp] at h; cases h
    | ok ocp =>
      cases ocp with
      | none => simp only [hgcp] at h; cases h
      | some cp =>
        simp only [hgcp] at h
        cases hmap : WasmGameEngineAdapter.mapWasmPlayerToSystemPlayer cp with
        | error e => simp only [hmap] at h; cases h
        | ok p =>
          simp only [hmap] at h
          split at h
          · cases h
          · next result mw heq =>
            injection h with h1
            injection h1 with h2 h3
            subst h2
            subst h3
            refine ⟨rfl, ?_⟩
            simp only [WasmGameEngineAdapter.getCurrentPlayer, hgcp]
            exact hmap

theorem turnTry_applied {σ : Type} (eng : WasmGameEngine σ) (es : σ) (st : GameState)
    (agent : AgentM) (cp : PlayerId) (st' : GameState) (es' : σ) (lines : List String)
    (mv : Move) (h : turnTry eng es st agent cp = .applied st' es' lines mv) :
    WasmGameEngineAdapter.applyMove eng es st mv = .ok (st', es') := by
  unfold turnTry at h
  split at h
  · cases h
  · split at h
    · cases h
    · split at h
      · cases h
      · next heq =>
        injection h with h1 h2 h3 h4
        subst h1
        subst h2
        subst h4
        exact heq
    · cases h

theorem gameLoop_invariant {σ : Type} (eng : WasmGameEngine σ)
    (agents : PlayerId → Option AgentM) :
    ∀ (fuel : Nat) (st : GameState) (es : σ) (started : List PlayerId),
      WasmGameEngineAdapter.getCurrentPlayer eng es = .ok st.currentPlayer →
      (gameLoop eng agents fuel st es started).state.moves =
        st.moves ++ ((gameLoop eng agents fuel st es started).moveEvents.filter
          (fun p => p.2)).map (fun p => p.1)
      ∧ WasmGameEngineAdapter.getCurrentPlayer eng
          (gameLoop eng agents fuel st es started).es =
          .ok (gameLoop eng agents fuel st es started).state.currentPlayer := by
  intro fuel
  induction fuel with
  | zero =>
    intro st es started hcp
    exact ⟨by simp [gameLoop, mkExit], by simpa [gameLoop, mkExit] using hcp⟩
  | succ n ih =>
    intro st es started hcp
    by_cases hgo : WasmGameEngineAdapter.isGameOver eng es = true
    · simp only [gameLoop, hgo, if_true]
      unfold endMatch
      cases hw : WasmGameEngineAdapter.getWinner eng es st with
      | error e => simp only [hw]; exact ⟨by simp [mkExit], by simpa [mkExit] using hcp⟩
      | ok w => simp only [hw]; exact ⟨by simp, by simpa using hcp⟩
    · rw [Bool.not_eq_true] at hgo
      simp only [gameLoop, hgo, Bool.false_eq_true, if_false, hcp]
      cases hag : agents st.currentPlayer with
      | none => simp only [hag]; exact ⟨by simp [mkExit], by simpa [mkExit] using hcp⟩
      | some agent =>
        simp only [hag]
        cases htt : turnTry eng es st agent st.currentPlayer with
        | threw e lines => simp only [htt]; exact ⟨by simp, by simpa using hcp⟩
        | invalid lines mv =>
          simp only [htt]
          have hr := ih st es ((if st.currentPlayer ∈ started then []
            else [st.currentPlayer]) ++ started) hcp
          refine ⟨?_, by simpa using hr.2⟩
          simp only [List.filter_cons, Bool.false_eq_true, if_false]
          simpa using hr.1
        | applied st' es' lines mv =>
          simp only [htt]
          have happ := turnTry_applied eng es st agent st.currentPlayer st' es' lines mv htt
          obtain ⟨hmoves, hcp'⟩ := applyMove_ok_props eng es st mv st' es' happ
          have hr := ih st' es' ((if st.currentPlayer ∈ started then []
            else [st.currentPlayer]) ++ started) hcp'
          refine ⟨?_, by simpa using hr.2⟩
          simp only [List.filter_cons, if_true, List.map_cons]
          have h1 := hr.1
          rw [hmoves] at h1
          simpa [List.append_assoc] using h1

/-- C3 (confirmed): the initial state starts with an empty move sequence
and a current player matching the engine's report; from any consistent
state, after any number of loop iterations the state's move sequence is
the entry sequence with exactly the successfully applied moves appended
in order (earlier entries untouched, invalid attempts appending nothing),
so its length is the entry length plus the number of applied moves, and
the state's `currentPlayer` always equals the player the engine itself
reports for the resulting state. -/
theorem C3_match_loop_invariant :
    (∀ (σ : Type) (eng : WasmGameEngine σ) (es : σ) (meta : List (String × String))
       (s0 : GameState) (es0 : σ),
      WasmGameEngineAdapter.getInitialState eng es meta = .ok (s0, es0) →
      s0.moves = [] ∧ WasmGameEngineAdapter.getCurrentPlayer eng es0 = .ok s0.currentPlayer)
    ∧ (∀ (σ : Type) (eng : WasmGameEngine σ) (agents : PlayerId → Option AgentM)
        (fuel : Nat) (st : GameState) (es : σ) (started : List PlayerId),
      WasmGameEngineAdapter.getCurrentPlayer eng es = .ok st.currentPlayer →
      (gameLoop eng agents fuel st es started).state.moves =
          st.moves ++ ((gameLoop eng agents fuel st es started).moveEvents.filter
            (fun p => p.2)).map (fun p => p.1)
        ∧ (gameLoop eng agents fuel st es started).state.moves.length =
            st.moves.length + ((gameLoop eng agents fuel st es started).moveEvents.filter
              (fun p => p.2)).length
        ∧ WasmGameEngineAdapter.getCurrentPlayer eng
            (gameLoop eng agents fuel st es started).es =
            .ok (gameLoop eng agents fuel st es started).state.currentPlayer) := by
  constructor
  · intro σ eng es meta s0 es0 h
    unfold WasmGameEngineAdapter.getInitialState at h
    rcases hx : eng.getInitialState es with ⟨ws, es1⟩
    simp only [hx] at h
    cases hgcp : eng.getCurrentPlayer es1 with
    | error e => simp only [hgcp] at h; cases h
    | ok ocp =>
      cases ocp with
      | none => simp only [hgcp] at h; cases h
      | some wcp =>
        simp only [hgcp] at h
        cases hmap : WasmGameEngineAdapter.mapWasmPlayerToSystemPlayer wcp with
        | error e => simp only [hmap] at h; cases h
        | ok cp =>
          simp only [hmap] at h
          injection h with h1
          injection h1 with h2 h3
          subst h2
          subst h3
          refine ⟨rfl, ?_⟩
          simp only [WasmGameEngineAdapter.getCurrentPlayer, hgcp]
          exact hmap
  · intro σ eng agents fuel st es started hcp
    have h := gameLoop_invariant eng agents fuel st es started hcp
    refine ⟨h.1, ?_, h.2⟩
    rw [h.1]
    simp

/-- A scripted one-move engine over the list of applied move strings. -/
def engC3 : WasmGameEngine (List String) :=
  { getInitialState := fun es => ("B0", es)
    getValidMoves := fun es => if es.isEmpty then ["m1"] else []
    getCurrentPlayer := fun _ => .ok (some "player1")
    applyMove := fun es m => ("B1", es ++ [m])
    isGameOver := fun es => !es.isEmpty
    getWinner := fun _ => none
    render := fun _ => "R" }

def agC3 : AgentM :=
  { name := "Scripted", type := "human",
    getMove := fun _ pid => .ok { playerId := pid, data := "m1", timestamp := 0 } }

def agentsC3 : PlayerId → Option AgentM := fun _ => some agC3

def s0C3 : GameState :=
  { board := "B0", currentPlayer := .player1, moves := [], result := .ongoing,
    winner := none, metadata := [] }

/-- C3 witness: both halves of the invariant at a concrete engine, initial
state and two-iteration run. -/
theorem C3_match_loop_invariant_witness :
    (s0C3.moves = []
      ∧ WasmGameEngineAdapter.getCurrentPlayer engC3 ([] : List String) = .ok s0C3.currentPlayer)
    ∧ ((gameLoop engC3 agentsC3 2 s0C3 [] []).state.moves =
        s0C3.moves ++ ((gameLoop engC3 agentsC3 2 s0C3 [] []).moveEvents.filter
          (fun p => p.2)).map (fun p => p.1)
      ∧ (gameLoop engC3 agentsC3 2 s0C3 [] []).state.moves.length =
          s0C3.moves.length + ((gameLoop engC3 agentsC3 2 s0C3 [] []).moveEvents.filter
            (fun p => p.2)).length
      ∧ WasmGameEngineAdapter.getCurrentPlayer engC3
          (gameLoop engC3 agentsC3 2 s0C3 [] []).es =
          .ok (gameLoop engC3 agentsC3 2 s0C3 [] []).state.currentPlayer) :=
  ⟨C3_match_loop_invariant.1 (List String) engC3 [] [] s0C3 [] rfl,
   C3_match_loop_invariant.2 (List String) engC3 agentsC3 2 s0C3 [] [] rfl⟩

/-! ### C5: the controller halts on a thrown turn -/

/-- The acting agent's `getMove`, or the validation or application of its
move, throws with message `e` (the three throw sites inside the loop's
try block). -/
def turnThrows {σ : Type} (eng : WasmGameEngine σ) (es : σ) (st : GameState)
    (agent : AgentM) (cp : PlayerId) (e : String) : Prop :=
  agent.getMove st cp = .error e
  ∨ (∃ mv, agent.getMove st cp = .ok mv
      ∧ WasmGameEngineAdapter.validateMove eng es st mv = .error e)
  ∨ (∃ mv, agent.getMove st cp = .ok mv
      ∧ WasmGameEngineAdapter.validateMove eng es st mv = .ok true
      ∧ WasmGameEngineAdapter.applyMove eng es st mv = .error e)

theorem turnThrows_threw {σ : Type} (eng : WasmGameEngine σ) (es : σ) (st : GameState)
    (agent : AgentM) (cp : PlayerId) (e : String) (h : turnThrows eng es st agent cp e) :
    turnTry eng es st agent cp =
      .threw e [turnHeader agent cp, turnErrorLine agent e] := by
  rcases h with hg | ⟨mv, hg, hv⟩ | ⟨mv, hg, hv, ha⟩
  · simp only [turnTry, hg]
  · simp only [turnTry, hg, hv]
  · simp only [turnTry, hg, hv, ha]

/-- C5 (confirmed): whenever the acting agent's `getMove`, or the
validation or application of its move, throws, the loop returns at once
with the entry state — no move event is emitted, the failure is written
to the transcript, the error observer is notified, no end-of-game hook
runs and the exit is `errored` (no resume); the LLM agent consumes only
its first provider reply (no retry), and when its parsed move fails
validation it throws an error whose message names the offending move
datum and the acting player's label. -/
theorem C5_fail_fast :
    (∀ (σ : Type) (eng : WasmGameEngine σ) (agents : PlayerId → Option AgentM)
       (fuel : Nat) (st : GameState) (es : σ) (started : List PlayerId)
       (cp : PlayerId) (agent : AgentM) (e : String),
      WasmGameEngineAdapter.isGameOver eng es = false →
      WasmGameEngineAdapter.getCurrentPlayer eng es = .ok cp →
      agents cp = some agent →
      turnThrows eng es st agent cp e →
      (gameLoop eng agents (fuel + 1) st es started).state = st
      ∧ (gameLoop eng agents (fuel + 1) st es started).moveEvents = []
      ∧ (gameLoop eng agents (fuel + 1) st es started).transcript =
          [turnHeader agent cp, turnErrorLine agent e]
      ∧ (gameLoop eng agents (fuel + 1) st es started).errors = [e]
      ∧ (gameLoop eng agents (fuel + 1) st es started).endHooks = []
      ∧ (gameLoop eng agents (fuel + 1) st es started).exit = .errored e)
    ∧ (∀ (σ : Type) (eng : WasmGameEngine σ) (es : σ) (st : GameState) (pid : PlayerId)
        (name : String) (now : Nat) (cancelled : Bool)
        (replies replies' : Nat → Except String String),
      replies 0 = replies' 0 →
      LLMAgent.getMove eng es st pid name now cancelled replies =
        LLMAgent.getMove eng es st pid name now cancelled replies')
    ∧ (∀ (σ : Type) (eng : WasmGameEngine σ) (es : σ) (st : GameState) (pid : PlayerId)
        (name : String) (now : Nat) (replies : Nat → Except String String)
        (validMoves : List Move) (content : String),
      WasmGameEngineAdapter.getValidMoves eng es now = .ok validMoves →
      replies 0 = .ok content →
      WasmGameEngineAdapter.validateMove eng es st
        { playerId := pid,
          data := LLMAgent.parseMove
            ((validMoves.filter (fun m => m.playerId = pid)).map (fun m => m.data)) content,
          timestamp := now } = .ok false →
      LLMAgent.getMove eng es st pid name now false replies =
        .error (LLMAgent.generationErrorMsg name
          (LLMAgent.invalidMoveMsg name
            (LLMAgent.parseMove
              ((validMoves.filter (fun m => m.playerId = pid)).map (fun m => m.data))
              content)
            pid.label))) := by
  refine ⟨?_, ?_, ?_⟩
  · intro σ eng agents fuel st es started cp agent e hgo hcp hag hthrow
    have htt := turnThrows_threw eng es st agent cp e hthrow
    simp only [gameLoop, hgo, Bool.false_eq_true, if_false, hcp, hag, htt]
    exact ⟨trivial, trivial, trivial, trivial, trivial, trivial⟩
  · intro σ eng es st pid name now cancelled replies replies' h
    cases cancelled with
    | true => rfl
    | false => simp only [LLMAgent.getMove, h]
  · intro σ eng es st pid name now replies validMoves content hvm hreply hval
    simp only [LLMAgent.getMove, LLMAgent.llmTryBody, hvm, hreply, hval,
      Bool.false_eq_true, if_false]

/-- Engine for the C5 witness: one valid move "a", player1 to move, game
not over. -/
def engC5 : WasmGameEngine Unit :=
  { getInitialState := fun u => ("B", u)
    getValidMoves := fun _ => ["a"]
    getCurrentPlayer := fun _ => .ok (some "player1")
    applyMove := fun u _ => ("B", u)
    isGameOver := fun _ => false
    getWinner := fun _ => none
    render := fun _ => "R" }

/-- Provider replies for the C5 witness: every call answers "z", which is
outside the valid-move list. -/
def repliesC5 : Nat → Except String String := fun _ => .ok "z"

/-- The error the LLM agent surfaces in the C5 witness scenario. -/
def eC5 : String :=
  LLMAgent.generationErrorMsg "Bot" (LLMAgent.invalidMoveMsg "Bot" "z" "player1")

def botC5 : AgentM :=
  { name := "Bot", type := "llm",
    getMove := fun st pid => LLMAgent.getMove engC5 () st pid "Bot" 0 false repliesC5 }

def agentsC5 : PlayerId → Option AgentM :=
  fun p => if p = .player1 then some botC5 else none

/-- C5 witness: an LLM agent whose reply parses to the invalid move "z"
makes the one-iteration loop halt in the `errored` state with the
invalid-move message, end hooks never running. -/
theorem C5_fail_fast_witness :
    LLMAgent.getMove engC5 () st0 .player1 "Bot" 0 false repliesC5 = .error eC5
    ∧ (gameLoop engC5 agentsC5 1 st0 () []).state = st0
    ∧ (gameLoop engC5 agentsC5 1 st0 () []).moveEvents = []
    ∧ (gameLoop engC5 agentsC5 1 st0 () []).errors = [eC5]
    ∧ (gameLoop engC5 agentsC5 1 st0 () []).endHooks = []
    ∧ (gameLoop engC5 agentsC5 1 st0 () []).exit = .errored eC5 := by
  have hmove : LLMAgent.getMove engC5 () st0 .player1 "Bot" 0 false repliesC5 =
      .error eC5 := by
    have h := C5_fail_fast.2.2 Unit engC5 () st0 .player1 "Bot" 0 repliesC5
      [{ playerId := .player1, data := "a", timestamp := 0 }] "z" rfl rfl (by decide)
    rw [show LLMAgent.parseMove
        (([({ playerId := .player1, data := "a", timestamp := 0 } : Move)].filter
          (fun m => m.playerId = PlayerId.player1)).map (fun m => m.data)) "z" = "z"
      from by decide] at h
    exact h
  have hloop := C5_fail_fast.1 Unit engC5 agentsC5 0 st0 () [] .player1 botC5 eC5
    rfl rfl rfl (Or.inl hmove)
  exact ⟨hmove, hloop.1, hloop.2.1, hloop.2.2.2.1, hloop.2.2.2.2.1, hloop.2.2.2.2.2⟩

end LlmArena
